import Mathlib

/-!
Verification of the conversation-orchestration core of the Manipulator-Demo
repository: the relevance matcher (`app/services/product_service.py`), the
conversation state machine (`app/services/conversation_manager.py`), the
task dispatcher and monitor (`app/services/task_manager.py`), the prompt
composer (`app/services/prompt_engine.py`) and the orchestrator routing
(`app/api/conversations.py`).  Python floats on the score path are modelled
as exact rationals; the MongoDB collection is modelled as an in-order list
of documents; machine-level details (timestamps, logging, metrics) that no
claim mentions are omitted.
-/

namespace ManipulatorDemo

/-! ## Relevance matcher (`ProductService`) -/

/-- The fields of a catalog product row (`ProductModel` / `schemas.Product`)
that `search_products_by_tags` reads: the id and the tag list. -/
structure ProductRow where
  product_id : String
  product_tag : List String
deriving DecidableEq, Repr

/-- Python's `str.lower()` on the ASCII range (all comparisons in the source
are over ASCII keywords and tags). -/
def pyCharLower (c : Char) : Char :=
  if 'A' ≤ c ∧ c ≤ 'Z' then Char.ofNat (c.toNat + 32) else c

def pyLower (s : String) : String := ⟨s.data.map pyCharLower⟩

/-- Lower-cased deduplicated set of a list of words, as built by
`set(word.lower() for word in keywords)` in `_calculate_tag_similarity`. -/
def lowerSet (ws : List String) : Finset String :=
  (ws.map pyLower).toFinset

/-- Embeds `ProductService._calculate_tag_similarity`
(`app/services/product_service.py`, lines 109-128): Jaccard similarity of the
lower-cased keyword set and the lower-cased tag set, with 0 when either input
list is empty and a guard for an empty union. -/
def calculate_tag_similarity (keywords product_tags : List String) : ℚ :=
  if keywords = [] ∨ product_tags = [] then 0
  else
    let kl := lowerSet keywords
    let tl := lowerSet product_tags
    if kl ∪ tl = ∅ then 0
    else ((kl ∩ tl).card : ℚ) / ((kl ∪ tl).card : ℚ)

/-- One entry of the list returned by `search_products_by_tags`: the product
together with its similarity score. -/
structure ScoredMatch where
  product : ProductRow
  score : ℚ
deriving DecidableEq, Repr

/-- The descending-score comparison used by
`matches.sort(key=lambda x: x['score'], reverse=True)`. -/
def scoreGE (a b : ScoredMatch) : Prop := b.score ≤ a.score

instance : DecidableRel scoreGE :=
  fun a b => inferInstanceAs (Decidable (b.score ≤ a.score))

instance : IsTotal ScoredMatch scoreGE :=
  ⟨fun a b => (le_total a.score b.score).symm⟩

instance : IsTrans ScoredMatch scoreGE :=
  ⟨fun _ _ _ hab hbc => le_trans hbc hab⟩

/-- The scored list before sorting: every product paired with its score, kept
when the score reaches the threshold (`if score >= threshold` in
`search_products_by_tags`). -/
def scoredMatches (keywords : List String) (threshold : ℚ)
    (products : List ProductRow) : List ScoredMatch :=
  (products.map fun p =>
      ScoredMatch.mk p (calculate_tag_similarity keywords p.product_tag)).filter
    (fun m => threshold ≤ m.score)

/-- Embeds `ProductService.search_products_by_tags`
(`app/services/product_service.py`, lines 66-94): score every product, keep
those at or above the threshold, sort by score descending.  Python's
`list.sort` is stable and `reverse=True` keeps equal elements in their
original order, which `List.insertionSort` with the total preorder `scoreGE`
reproduces. -/
def search_products_by_tags (keywords : List String) (threshold : ℚ)
    (products : List ProductRow) : List ScoredMatch :=
  List.insertionSort scoreGE (scoredMatches keywords threshold products)

/-! ## Conversation status decision (`ConversationManager._determine_conversation_status`) -/

/-- Conversation lifecycle states (`schemas.ConversationStatus`). -/
inductive ConversationStatus where
  | active
  | qualified
  | uninterested
  | transferred
deriving DecidableEq, Repr

/-- The fields of the message-analysis dictionary that the status decision
reads.  The source stores free-form strings produced either by the AI JSON
answer or by `_fallback_message_analysis`, so the fields are strings here. -/
structure MessageAnalysis where
  interest_level : String
  sentiment : String
  intent : String
  needs_cross_recommendation : Bool
  strategy : String
deriving DecidableEq, Repr

/-- Embeds `ConversationManager._determine_conversation_status`
(`app/services/conversation_manager.py`, lines 341-358), with the
`interest_level` / `intent` values and the tracked `message_count` as
arguments (the source reads them from the analysis dict and the state dict
with defaults already applied by `.get`). -/
def determine_conversation_status (interest_level intent : String)
    (message_count : ℕ) : ConversationStatus :=
  if intent = "purchase" ∧ (interest_level = "high" ∨ interest_level = "medium") then
    .qualified
  else if interest_level = "declining" ∨ intent = "objection" ∨ intent = "leaving" then
    .uninterested
  else if message_count > 10 ∧ interest_level = "low" then
    .uninterested
  else
    .active

/-! Stability of the descending sort: filtering the sorted list down to one
score value gives the same list as filtering the input, so ties stay in
insertion order. -/

lemma filter_orderedInsert_score (s : ℚ) (a : ScoredMatch) :
    ∀ l : List ScoredMatch,
      (List.orderedInsert scoreGE a l).filter (fun m => decide (m.score = s)) =
        (a :: l).filter (fun m => decide (m.score = s))
  | [] => rfl
  | b :: l => by
    by_cases hab : scoreGE a b
    · simp [List.orderedInsert, hab]
    · have hab' : ¬ b.score ≤ a.score := hab
      have hlt : a.score < b.score := not_le.mp hab'
      have ih := filter_orderedInsert_score s a l
      by_cases hpa : a.score = s
      · have hpb : ¬ b.score = s := by
          intro h
          rw [hpa] at hlt
          rw [h] at hlt
          exact lt_irrefl s hlt
        simp [List.orderedInsert, hab, List.filter_cons, hpa, hpb, ih]
      · simp [List.orderedInsert, hab, List.filter_cons, hpa, ih]

lemma filter_insertionSort_score (s : ℚ) :
    ∀ l : List ScoredMatch,
      (List.insertionSort scoreGE l).filter (fun m => decide (m.score = s)) =
        l.filter (fun m => decide (m.score = s))
  | [] => rfl
  | a :: l => by
    have ih := filter_insertionSort_score s l
    rw [List.insertionSort, filter_orderedInsert_score]
    simp [List.filter_cons, ih]

/-- C1: `search_products_by_tags` returns exactly the scored items whose
Jaccard score reaches the threshold (a permutation of, and the same members
as, the filtered scored list), sorted by score descending, with ties kept in
product insertion order (filtering to any single score value reproduces the
unsorted filtered list); an empty keyword list with a positive threshold
yields the empty list. -/
theorem search_products_by_tags_spec (keywords : List String) (threshold : ℚ)
    (products : List ProductRow) :
    (search_products_by_tags keywords threshold products).Perm
        (scoredMatches keywords threshold products)
    ∧ (search_products_by_tags keywords threshold products).Sorted scoreGE
    ∧ (∀ m, m ∈ search_products_by_tags keywords threshold products ↔
        m ∈ products.map
            (fun p => ScoredMatch.mk p (calculate_tag_similarity keywords p.product_tag))
          ∧ threshold ≤ m.score)
    ∧ (∀ s : ℚ,
        (search_products_by_tags keywords threshold products).filter
            (fun m => decide (m.score = s)) =
          (scoredMatches keywords threshold products).filter
            (fun m => decide (m.score = s)))
    ∧ (keywords = [] → 0 < threshold →
        search_products_by_tags keywords threshold products = []) := by
  refine ⟨List.perm_insertionSort _ _, List.sorted_insertionSort _ _, ?_, ?_, ?_⟩
  · intro m
    rw [search_products_by_tags, List.mem_insertionSort, scoredMatches, List.mem_filter]
    simp
  · intro s
    exact filter_insertionSort_score s _
  · intro hk ht
    subst hk
    have h0 : scoredMatches [] threshold products = [] := by
      apply List.filter_eq_nil_iff.mpr
      intro m hm
      have hs : m.score = 0 := by
        rcases List.mem_map.mp hm with ⟨p, _, rfl⟩
        simp [calculate_tag_similarity]
      simp [hs, not_le.mpr ht]
    rw [search_products_by_tags, h0]
    rfl

/-- Witness for C1: the empty keyword list with positive threshold 3/10
produces the empty result on a concrete one-product catalog. -/
theorem search_products_by_tags_spec_witness :
    search_products_by_tags [] (3/10) [⟨"p1", ["laptop", "gaming", "dell"]⟩] = [] :=
  (search_products_by_tags_spec [] (3/10)
    [⟨"p1", ["laptop", "gaming", "dell"]⟩]).2.2.2.2 rfl (by norm_num)

/-- C3: the status decision is Qualified exactly when intent is purchase with
high or medium interest, Uninterested exactly when interest is declining or
intent is objection or leaving or the message count exceeds 10 with low
interest, and Active otherwise. -/
theorem determine_conversation_status_spec (interest_level intent : String)
    (message_count : ℕ) :
    (determine_conversation_status interest_level intent message_count = .qualified ↔
      intent = "purchase" ∧ (interest_level = "high" ∨ interest_level = "medium"))
    ∧ (determine_conversation_status interest_level intent message_count = .uninterested ↔
      (interest_level = "declining" ∨ intent = "objection" ∨ intent = "leaving"
        ∨ (message_count > 10 ∧ interest_level = "low")))
    ∧ (determine_conversation_status interest_level intent message_count = .active ↔
      ¬ (intent = "purchase" ∧ (interest_level = "high" ∨ interest_level = "medium"))
        ∧ ¬ (interest_level = "declining" ∨ intent = "objection" ∨ intent = "leaving"
          ∨ (message_count > 10 ∧ interest_level = "low"))) := by
  unfold determine_conversation_status
  split_ifs with h1 h2 h3 <;> refine ⟨?_, ?_, ?_⟩ <;> simp_all <;> try tauto
  all_goals
    rcases h1 with ⟨hp, hlev⟩ <;> subst hp <;>
      rcases hlev with h | h <;> subst h <;> simp_all

/-- Witness for C3 (the statement is a conjunction of equivalences with no
standalone hypotheses, but the equivalences contain implications): intent
purchase with high interest at message count 1 is Qualified. -/
theorem determine_conversation_status_spec_witness :
    determine_conversation_status "high" "purchase" 1 = .qualified :=
  (determine_conversation_status_spec "high" "purchase" 1).1.mpr (by simp)

/-! ## Task dispatcher and monitor (`TaskManager`) -/

/-- Embeds `TaskManager._get_queue_for_priority`
(`app/services/task_manager.py`, lines 409-416): a static dict from priority
to queue name, with the medium queue (`"webhooks"`) as the `.get` default.
The three queue names are fixed in `TaskManager.__init__` (lines 37-46). -/
def get_queue_for_priority (priority : String) : String :=
  let queue_map : List (String × String) :=
    [("high", "conversations"), ("medium", "webhooks"), ("low", "analytics")]
  (queue_map.lookup priority).getD "webhooks"

/-- One enqueued task as seen by the queue backend: the queue
`apply_async(queue=...)` sent it to and the task id. -/
structure QueuedTask where
  queue : String
  task_id : String
deriving DecidableEq, Repr

/-- Dispatching a batch of `(task_id, priority)` pairs in order: each
`*_async` method enqueues onto `_get_queue_for_priority(priority)`. -/
def dispatch_tasks (tasks : List (String × String)) : List QueuedTask :=
  tasks.map fun t => ⟨get_queue_for_priority t.2, t.1⟩

/-- The Celery task states that `get_active_tasks` and
`_cleanup_old_task_tracking` treat as terminal. -/
def terminalStates : List String := ["SUCCESS", "FAILURE", "REVOKED"]

/-- The queue backend record: the recorded state per task id, `none` when the
backend has no record of the id. -/
structure QueueBackend where
  state : String → Option String

/-- Modelled from the spec: the consumed Queue Backend
(`Status(handle) → state`) is Celery, whose `AsyncResult.state` reports
`"PENDING"` for a task id the result backend has no record of. -/
def QueueBackend.resultState (b : QueueBackend) (task_id : String) : String :=
  (b.state task_id).getD "PENDING"

/-- Modelled from the spec: the Queue Backend `Revoke(handle, terminate)`
marks a not-yet-terminal task `REVOKED` and leaves an already-finished
recorded state unchanged. -/
def QueueBackend.revoke (b : QueueBackend) (task_id : String) : QueueBackend :=
  ⟨fun t =>
    if t = task_id ∧ ¬ b.resultState t ∈ terminalStates then some "REVOKED"
    else b.state t⟩

/-- The local tracking entry recorded by the dispatch methods
(`self.active_tasks[task.id] = {...}`). -/
structure TrackingEntry where
  task_type : String
  priority : String
deriving DecidableEq, Repr

/-- The `TaskManager` state: the in-process `active_tasks` tracking dict (as
an association list) plus the queue backend it talks to. -/
structure TaskManagerState where
  active_tasks : List (String × TrackingEntry)
  backend : QueueBackend

/-- The fields of the status dict built by `get_task_status` that the claims
read. -/
structure TaskStatusInfo where
  task_id : String
  status : String
deriving DecidableEq, Repr

/-- Embeds `TaskManager.get_task_status`
(`app/services/task_manager.py`, lines 257-291): the reported status is
`AsyncResult(task_id).state` verbatim; the only other value the method can
produce is `"ERROR"` in its exception branch.  No branch maps an unknown
handle to a NotFound status. -/
def get_task_status (st : TaskManagerState) (task_id : String) : TaskStatusInfo :=
  ⟨task_id, st.backend.resultState task_id⟩

/-- Embeds `TaskManager.cancel_task`
(`app/services/task_manager.py`, lines 309-326): revoke through the backend,
delete the local tracking entry when present, return `True`.  The method
never inspects the task state; its `False` branch is reached only when the
backend call raises. -/
def cancel_task (st : TaskManagerState) (task_id : String) :
    Bool × TaskManagerState :=
  (true,
    { st with
        backend := st.backend.revoke task_id
        active_tasks := st.active_tasks.filter fun kv => kv.1 != task_id })

/-- A concrete `TaskManager` state whose backend records task `"t1"` as
already terminal (`SUCCESS`), with a live tracking entry for it. -/
def terminalTaskExample : TaskManagerState :=
  ⟨[("t1", ⟨"conversation_message", "high"⟩)],
    ⟨fun t => if t = "t1" then some "SUCCESS" else none⟩⟩

lemma lookup_filter_ne (k : String) :
    ∀ l : List (String × TrackingEntry),
      (l.filter fun kv => kv.1 != k).lookup k = none
  | [] => rfl
  | kv :: l => by
    by_cases h : kv.1 = k
    · simp [List.filter_cons, h, lookup_filter_ne k l]
    · have hbeq : (k == kv.1) = false := beq_eq_false_iff_ne.mpr (Ne.symm h)
      simp [List.filter_cons, h, List.lookup, hbeq, lookup_filter_ne k l]

/-- C6 counterexample: cancelling the already-terminal task `"t1"` returns
`true`, not `false`, and removes its local tracking entry rather than leaving
the recorded tracking state unchanged. -/
theorem cancel_task_terminal_counterexample :
    (cancel_task terminalTaskExample "t1").1 = true
    ∧ (cancel_task terminalTaskExample "t1").2.active_tasks = [] := by
  exact ⟨rfl, by decide⟩

/-- C6 amended: `cancel_task` on an already-terminal task still returns
`true` (the method never inspects the state); the backend keeps the terminal
recorded state (revoking a finished task is a no-op in the backend), but the
local tracking entry is removed. -/
theorem cancel_task_terminal_spec (st : TaskManagerState) (task_id : String)
    (h : st.backend.resultState task_id ∈ terminalStates) :
    (cancel_task st task_id).1 = true
    ∧ (cancel_task st task_id).2.backend.state task_id = st.backend.state task_id
    ∧ (cancel_task st task_id).2.active_tasks.lookup task_id = none := by
  refine ⟨rfl, ?_, lookup_filter_ne task_id st.active_tasks⟩
  simp [cancel_task, QueueBackend.revoke, h]

/-- Witness for C6's amended theorem at the concrete terminal-task state. -/
theorem cancel_task_terminal_spec_witness :
    (cancel_task terminalTaskExample "t1").1 = true
    ∧ (cancel_task terminalTaskExample "t1").2.backend.state "t1" =
        terminalTaskExample.backend.state "t1"
    ∧ (cancel_task terminalTaskExample "t1").2.active_tasks.lookup "t1" = none :=
  cancel_task_terminal_spec terminalTaskExample "t1" (by decide)

/-- C7 counterexample: on a backend with no record of handle `"t-unknown"`,
`get_task_status` reports the ordinary lifecycle state `"PENDING"`, not a
NotFound status. -/
theorem get_task_status_unknown_counterexample :
    (get_task_status ⟨[], ⟨fun _ => none⟩⟩ "t-unknown").status = "PENDING"
    ∧ (get_task_status ⟨[], ⟨fun _ => none⟩⟩ "t-unknown").status ≠ "NotFound" := by
  exact ⟨rfl, by decide⟩

/-- C7 amended: for every handle the backend has no record of,
`get_task_status` reports Celery's default state `"PENDING"` (the code
returns the backend state unchanged and has no NotFound translation). -/
theorem get_task_status_unknown_spec (st : TaskManagerState) (task_id : String)
    (h : st.backend.state task_id = none) :
    (get_task_status st task_id).status = "PENDING" := by
  simp [get_task_status, QueueBackend.resultState, h]

/-- Witness for C7's amended theorem on an empty backend. -/
theorem get_task_status_unknown_spec_witness :
    (get_task_status ⟨[], ⟨fun _ => none⟩⟩ "t1").status = "PENDING" :=
  get_task_status_unknown_spec ⟨[], ⟨fun _ => none⟩⟩ "t1" rfl

/-- C8: the priority-to-queue mapping is the fixed function High to
`conversations`, Medium to `webhooks`, Low to `analytics`; dispatching three
tasks with priorities high, low, high places both high tasks (in order) in
the conversations queue and the low task in the analytics queue. -/
theorem get_queue_for_priority_spec :
    get_queue_for_priority "high" = "conversations"
    ∧ get_queue_for_priority "medium" = "webhooks"
    ∧ get_queue_for_priority "low" = "analytics"
    ∧ ((dispatch_tasks [("t1", "high"), ("t2", "low"), ("t3", "high")]).filter
        (fun q => q.queue == "conversations")).map QueuedTask.task_id = ["t1", "t3"]
    ∧ ((dispatch_tasks [("t1", "high"), ("t2", "low"), ("t3", "high")]).filter
        (fun q => q.queue == "analytics")).map QueuedTask.task_id = ["t2"] := by
  refine ⟨rfl, rfl, rfl, by decide, by decide⟩

/-! ## Orchestrator conversation routing (`app/api/conversations.py`) -/

/-- The conversation-document fields the routing logic reads.  Conversation
ids are `uuid4` strings in the source; their freshness is modelled by a
counter issuing each id once. -/
structure ConvDoc where
  conversation_id : ℕ
  customer_id : String
  business_id : String
  status : ConversationStatus
deriving DecidableEq, Repr

/-- The Mongo query predicate of
`ConversationService.get_active_conversations_for_customer`
(`app/services/conversation_service.py`, lines 139-155). -/
def isActiveFor (customer_id : String) (c : ConvDoc) : Bool :=
  c.customer_id == customer_id && c.status == ConversationStatus.active

/-- Embeds `get_active_conversations_for_customer`: the collection filtered
on customer id and Active status, in document insertion order. -/
def get_active_conversations_for_customer (convs : List ConvDoc)
    (customer_id : String) : List ConvDoc :=
  convs.filter (isActiveFor customer_id)

/-- What the engine did to the handled conversation after routing: either no
status write happened, or `_conclude_conversation` persisted a final status
through `update_conversation_status`. -/
inductive ProcessOutcome where
  | noConclusion
  | concluded (final : ConversationStatus)
deriving DecidableEq, Repr

/-- Embeds `ConversationService.update_conversation_status`: sets the status
of the document whose `_id` matches. -/
def update_conversation_status (convs : List ConvDoc) (cid : ℕ)
    (final : ConversationStatus) : List ConvDoc :=
  convs.map fun c =>
    if c.conversation_id = cid then { c with status := final } else c

def applyOutcome (convs : List ConvDoc) (cid : ℕ) :
    ProcessOutcome → List ConvDoc
  | .noConclusion => convs
  | .concluded final => update_conversation_status convs cid final

/-- The conversation collection plus the id counter standing in for `uuid4`. -/
structure OrchestratorState where
  convs : List ConvDoc
  nextId : ℕ
deriving Repr

/-- Embeds the synchronous routing of the `/conversation/message` endpoint
(`app/api/conversations.py`, lines 74-113): an inbound message looks up the
customer's Active conversations; when one exists the interaction continues
`existing_conversations[0]` and no document is created, otherwise
`create_conversation` inserts a new Active document.  The engine may then
conclude the handled conversation (`outcome`).  Returns the new state and
the conversation id the interaction attached to. -/
def handle_interaction (st : OrchestratorState) (customer_id business_id : String)
    (outcome : ProcessOutcome) : OrchestratorState × ℕ :=
  match get_active_conversations_for_customer st.convs customer_id with
  | c :: _ =>
      (⟨applyOutcome st.convs c.conversation_id outcome, st.nextId⟩,
        c.conversation_id)
  | [] =>
      let doc : ConvDoc := ⟨st.nextId, customer_id, business_id, .active⟩
      (⟨applyOutcome (st.convs ++ [doc]) st.nextId outcome, st.nextId + 1⟩,
        st.nextId)

/-- One inbound interaction as the orchestrator sees it: a direct message
(the `/conversation/message` routing, whose engine may conclude the handled
conversation) or an ad-click interaction (the
`/conversation/webhook-interaction` routing and the manipulator task). -/
inductive InboundInteraction where
  | message (customer_id business_id : String) (outcome : ProcessOutcome)
  | adClick (customer_id business_id : String)
deriving DecidableEq, Repr

def InboundInteraction.isMessage : InboundInteraction → Bool
  | .message _ _ _ => true
  | .adClick _ _ => false

/-- One orchestrator step.  A direct message goes through
`handle_interaction` (check-then-create).  An ad-click goes through
`start_manipulator_conversation` (`app/api/conversations.py`, lines 242-259,
and `app/tasks/conversation_tasks.py`, lines 224-246), which calls
`ConversationManager.start_conversation` and hence `create_conversation`
directly — no `get_active_conversations_for_customer` check — inserting a
new Active document unconditionally. -/
def orchestrator_step (st : OrchestratorState) :
    InboundInteraction → OrchestratorState × ℕ
  | .message cust biz o => handle_interaction st cust biz o
  | .adClick cust biz =>
      (⟨st.convs ++ [⟨st.nextId, cust, biz, .active⟩], st.nextId + 1⟩,
        st.nextId)

/-- A sequence of inbound interactions handled from an empty store. -/
def run_orchestrator (events : List InboundInteraction) : OrchestratorState :=
  events.foldl (fun st e => (orchestrator_step st e).1) ⟨[], 0⟩

/-- The inductive invariant of the orchestrator state: ids are unique and
below the counter, and every customer has at most one Active conversation. -/
structure OrchInvariant (st : OrchestratorState) : Prop where
  uniqueIds : (st.convs.map ConvDoc.conversation_id).Nodup
  freshIds : ∀ c ∈ st.convs, c.conversation_id < st.nextId
  oneActive : ∀ cust, st.convs.countP (isActiveFor cust) ≤ 1

lemma update_status_map_id (convs : List ConvDoc) (cid : ℕ)
    (final : ConversationStatus) :
    (update_conversation_status convs cid final).map ConvDoc.conversation_id
      = convs.map ConvDoc.conversation_id := by
  unfold update_conversation_status
  rw [List.map_map]
  apply List.map_congr_left
  intro c _
  by_cases h : c.conversation_id = cid <;> simp [h]

lemma applyOutcome_map_id (convs : List ConvDoc) (cid : ℕ) (o : ProcessOutcome) :
    (applyOutcome convs cid o).map ConvDoc.conversation_id
      = convs.map ConvDoc.conversation_id := by
  cases o with
  | noConclusion => rfl
  | concluded final => exact update_status_map_id convs cid final

lemma countP_update_le (convs : List ConvDoc) (cid : ℕ)
    (final : ConversationStatus) (hfin : final ≠ .active) (cust : String) :
    (update_conversation_status convs cid final).countP (isActiveFor cust)
      ≤ convs.countP (isActiveFor cust) := by
  unfold update_conversation_status
  rw [List.countP_map]
  apply List.countP_mono_left
  intro c _ h
  by_cases hc : c.conversation_id = cid
  · exfalso
    have hfb : (final == ConversationStatus.active) = false :=
      beq_eq_false_iff_ne.mpr hfin
    simp [Function.comp, isActiveFor, hc, hfb] at h
  · simpa [Function.comp, hc] using h

lemma update_status_active_attach_eq (convs : List ConvDoc) (c₀ : ConvDoc)
    (hact : c₀.status = .active)
    (hinj : ∀ c ∈ convs, c.conversation_id = c₀.conversation_id → c = c₀) :
    update_conversation_status convs c₀.conversation_id .active = convs := by
  unfold update_conversation_status
  have hpt : ∀ c ∈ convs,
      (if c.conversation_id = c₀.conversation_id then { c with status := .active }
        else c) = c := by
    intro c hc
    by_cases h : c.conversation_id = c₀.conversation_id
    · have hcc := hinj c hc h
      subst hcc
      simp [h, ← hact]
    · simp [h]
  rw [List.map_congr_left hpt]
  simp

lemma countP_update_append_fresh (convs : List ConvDoc) (doc : ConvDoc)
    (final : ConversationStatus)
    (hfresh : ∀ c ∈ convs, c.conversation_id ≠ doc.conversation_id)
    (cust : String) :
    (update_conversation_status (convs ++ [doc]) doc.conversation_id
        final).countP (isActiveFor cust)
      = convs.countP (isActiveFor cust)
        + (if isActiveFor cust { doc with status := final } then 1 else 0) := by
  unfold update_conversation_status
  rw [List.map_append, List.countP_append]
  congr 1
  · have hpt : ∀ c ∈ convs,
        (if c.conversation_id = doc.conversation_id then { c with status := final }
          else c) = c := by
      intro c hc
      simp [hfresh c hc]
    rw [List.map_congr_left hpt]
    simp
  · simp [List.countP_cons]

lemma countP_le_one_of_filter_nil (convs : List ConvDoc) (cust : String)
    (h : get_active_conversations_for_customer convs cust = []) :
    convs.countP (isActiveFor cust) = 0 := by
  have := congrArg List.length h
  rw [get_active_conversations_for_customer] at this
  simpa [List.countP_eq_length_filter] using this

lemma handle_interaction_invariant (st : OrchestratorState)
    (cust biz : String) (o : ProcessOutcome) (h : OrchInvariant st) :
    OrchInvariant (handle_interaction st cust biz o).1 := by
  cases hm : get_active_conversations_for_customer st.convs cust with
  | cons c rest =>
    have hcmem : c ∈ st.convs := by
      have : c ∈ get_active_conversations_for_customer st.convs cust := by
        rw [hm]; exact List.mem_cons_self c rest
      exact List.mem_of_mem_filter this
    have hcact : isActiveFor cust c = true := by
      have : c ∈ get_active_conversations_for_customer st.convs cust := by
        rw [hm]; exact List.mem_cons_self c rest
      exact List.of_mem_filter this
    have hstat : c.status = .active := by
      simp [isActiveFor] at hcact
      exact hcact.2
    have hinj : ∀ x ∈ st.convs, x.conversation_id = c.conversation_id → x = c :=
      fun x hx hxc =>
        List.inj_on_of_nodup_map h.uniqueIds hx hcmem hxc
    simp only [handle_interaction, hm]
    refine ⟨?_, ?_, ?_⟩
    · rw [applyOutcome_map_id]; exact h.uniqueIds
    · intro x hx
      have : x.conversation_id ∈
          (applyOutcome st.convs c.conversation_id o).map ConvDoc.conversation_id :=
        List.mem_map_of_mem ConvDoc.conversation_id hx
      rw [applyOutcome_map_id] at this
      rcases List.mem_map.mp this with ⟨y, hy, hyx⟩
      exact hyx ▸ h.freshIds y hy
    · intro cust'
      cases o with
      | noConclusion => exact h.oneActive cust'
      | concluded final =>
        by_cases hfin : final = ConversationStatus.active
        · subst hfin
          show (update_conversation_status st.convs c.conversation_id
              .active).countP (isActiveFor cust') ≤ 1
          rw [update_status_active_attach_eq st.convs c hstat hinj]
          exact h.oneActive cust'
        · exact le_trans
            (countP_update_le st.convs c.conversation_id final hfin cust')
            (h.oneActive cust')
  | nil =>
    have hzero : st.convs.countP (isActiveFor cust) = 0 :=
      countP_le_one_of_filter_nil st.convs cust hm
    simp only [handle_interaction, hm]
    have hfresh : ∀ x ∈ st.convs, x.conversation_id ≠ st.nextId :=
      fun x hx => Nat.ne_of_lt (h.freshIds x hx)
    show OrchInvariant
      ⟨applyOutcome (st.convs ++ [(⟨st.nextId, cust, biz, .active⟩ : ConvDoc)])
          st.nextId o,
        st.nextId + 1⟩
    refine ⟨?_, ?_, ?_⟩
    · rw [applyOutcome_map_id, List.map_append]
      rw [List.nodup_append]
      refine ⟨h.uniqueIds, List.nodup_singleton _, ?_⟩
      intro a ha hb
      rcases List.mem_map.mp ha with ⟨y, hy, hya⟩
      simp at hb
      exact hfresh y hy (hya.trans hb)
    · intro x hx
      have : x.conversation_id ∈
          (applyOutcome (st.convs ++ [⟨st.nextId, cust, biz, .active⟩])
            st.nextId o).map ConvDoc.conversation_id :=
        List.mem_map_of_mem ConvDoc.conversation_id hx
      rw [applyOutcome_map_id, List.map_append] at this
      rcases List.mem_append.mp this with hl | hr
      · rcases List.mem_map.mp hl with ⟨y, hy, hyx⟩
        exact hyx ▸ Nat.lt_succ_of_lt (h.freshIds y hy)
      · simp at hr
        simp [hr]
    · intro cust'
      cases o with
      | noConclusion =>
        show (st.convs ++ [(⟨st.nextId, cust, biz, .active⟩ : ConvDoc)]).countP
            (isActiveFor cust') ≤ 1
        rw [List.countP_append]
        by_cases hcc : cust' = cust
        · subst hcc
          rw [hzero]
          simp only [List.countP_singleton, Nat.zero_add]
          split <;> simp
        · have hdoc : isActiveFor cust' (⟨st.nextId, cust, biz, .active⟩ : ConvDoc)
              = false := by
            simp [isActiveFor]
            intro hcust
            exact absurd hcust.symm hcc
          rw [List.countP_singleton, hdoc]
          simpa using h.oneActive cust'
      | concluded final =>
        show (update_conversation_status
            (st.convs ++ [(⟨st.nextId, cust, biz, .active⟩ : ConvDoc)]) st.nextId
            final).countP (isActiveFor cust') ≤ 1
        have hfresh' : ∀ x ∈ st.convs,
            x.conversation_id ≠
              (⟨st.nextId, cust, biz, ConversationStatus.active⟩ : ConvDoc).conversation_id :=
          fun x hx => hfresh x hx
        rw [countP_update_append_fresh st.convs _ final hfresh' cust']
        by_cases hcc : cust' = cust
        · subst hcc
          rw [hzero]
          split <;> simp
        · have hdoc : isActiveFor cust'
              ({ (⟨st.nextId, cust, biz, ConversationStatus.active⟩ : ConvDoc) with
                  status := final }) = false := by
            simp [isActiveFor]
            intro hcust
            exact absurd hcust.symm hcc
          rw [hdoc]
          simpa using h.oneActive cust'

lemma run_orchestrator_invariant (events : List InboundInteraction)
    (hmsg : ∀ e ∈ events, e.isMessage = true) :
    OrchInvariant (run_orchestrator events) := by
  have hgen : ∀ (evs : List InboundInteraction) (st : OrchestratorState),
      (∀ e ∈ evs, e.isMessage = true) → OrchInvariant st →
      OrchInvariant (evs.foldl (fun s e => (orchestrator_step s e).1) st) := by
    intro evs
    induction evs with
    | nil => intro st _ h; exact h
    | cons e evs ih =>
      intro st hm h
      cases e with
      | message cust biz o =>
        exact ih _ (fun x hx => hm x (List.mem_cons_of_mem _ hx))
          (handle_interaction_invariant st cust biz o h)
      | adClick cust biz =>
        exact absurd (hm _ (List.mem_cons_self _ _))
          (by simp [InboundInteraction.isMessage])
  exact hgen events ⟨[], 0⟩ hmsg
    ⟨List.nodup_nil, (by intro c hc; cases hc), (by intro cust; simp)⟩

/-- C2 counterexample: a direct message from customer `alice` followed by an
ad-click from the same customer leaves two Active conversations for the one
pair (`alice`, `b1`): the ad-click path creates a conversation without any
existing-Active check. -/
theorem orchestrator_one_active_counterexample :
    ((run_orchestrator
        [.message "alice" "b1" .noConclusion,
          .adClick "alice" "b1"]).convs.filter fun c =>
        c.customer_id == "alice" && c.business_id == "b1"
          && c.status == ConversationStatus.active).length = 2 := by
  decide

/-- C2 amended: restricted to direct-message interactions the invariant
holds — after any all-message sequence from an empty store at most one
Active conversation exists per (customer id, business id) pair, a message
attaches to the first existing Active conversation's id creating no document
(the id list is unchanged), and one is created exactly when no Active
conversation exists for that customer — but an ad-click interaction inserts
a new Active conversation unconditionally (the manipulator path performs no
existing-conversation check), so the invariant does not survive mixed
sequences. -/
theorem orchestrator_one_active_spec :
    (∀ events : List InboundInteraction,
      (∀ e ∈ events, e.isMessage = true) → ∀ cust biz,
      ((run_orchestrator events).convs.filter fun c =>
          c.customer_id == cust && c.business_id == biz
            && c.status == ConversationStatus.active).length ≤ 1)
    ∧ (∀ st : OrchestratorState, ∀ cust biz : String, ∀ o : ProcessOutcome,
        ∀ c : ConvDoc, ∀ rest : List ConvDoc,
        get_active_conversations_for_customer st.convs cust = c :: rest →
          (orchestrator_step st (.message cust biz o)).1.convs.map
              ConvDoc.conversation_id
              = st.convs.map ConvDoc.conversation_id
            ∧ (orchestrator_step st (.message cust biz o)).2
                = c.conversation_id)
    ∧ (∀ st : OrchestratorState, ∀ cust biz : String, ∀ o : ProcessOutcome,
        get_active_conversations_for_customer st.convs cust = [] →
          (orchestrator_step st (.message cust biz o)).1.convs.map
            ConvDoc.conversation_id
            = st.convs.map ConvDoc.conversation_id ++ [st.nextId])
    ∧ (∀ st : OrchestratorState, ∀ cust biz : String,
        (orchestrator_step st (.adClick cust biz)).1.convs
          = st.convs ++ [⟨st.nextId, cust, biz, .active⟩]) := by
  refine ⟨?_, ?_, ?_, fun st cust biz => rfl⟩
  · intro events hmsg cust biz
    have hinv := (run_orchestrator_invariant events hmsg).oneActive cust
    rw [← List.countP_eq_length_filter]
    refine le_trans (List.countP_mono_left ?_) hinv
    intro c _ hc
    simp only [Bool.and_eq_true, beq_iff_eq] at hc
    simp [isActiveFor, hc.1.1, hc.2]
  · intro st cust biz o c rest hm
    simp only [orchestrator_step, handle_interaction, hm]
    exact ⟨applyOutcome_map_id st.convs c.conversation_id o, trivial⟩
  · intro st cust biz o hm
    simp only [orchestrator_step, handle_interaction, hm]
    rw [applyOutcome_map_id, List.map_append]
    rfl

/-- Witness for C2's amended theorem: a one-message sequence keeps at most
one Active conversation; on a store holding one Active conversation for
customer `alice` the next message attaches to it (id 0, no new document); on
the empty store a message creates document id 0. -/
theorem orchestrator_one_active_spec_witness :
    ((run_orchestrator [.message "alice" "b1" .noConclusion]).convs.filter
        fun c => c.customer_id == "alice" && c.business_id == "b1"
          && c.status == ConversationStatus.active).length ≤ 1
    ∧ (orchestrator_step ⟨[⟨0, "alice", "b1", .active⟩], 1⟩
        (.message "alice" "b2" .noConclusion)).2 = 0
    ∧ (orchestrator_step (⟨[], 0⟩ : OrchestratorState)
        (.message "alice" "b1" .noConclusion)).1.convs.map
        ConvDoc.conversation_id = [0] :=
  ⟨orchestrator_one_active_spec.1 [.message "alice" "b1" .noConclusion]
      (by decide) "alice" "b1",
    (orchestrator_one_active_spec.2.1 ⟨[⟨0, "alice", "b1", .active⟩], 1⟩
      "alice" "b2" .noConclusion ⟨0, "alice", "b1", .active⟩ [] (by decide)).2,
    by
      have h := orchestrator_one_active_spec.2.2.1
        (⟨[], 0⟩ : OrchestratorState) "alice" "b1" .noConclusion rfl
      simpa using h⟩

/-! ## Conversation state machine (`ConversationManager`) -/

/-- One apostrophe, written by code point so the source stays plain ASCII. -/
def apos : String := String.singleton (Char.ofNat 39)

/-- Message sender (`schemas.MessageSender`). -/
inductive MessageSender where
  | agent
  | customer
deriving DecidableEq, Repr

/-- Conversation branch (`schemas.ConversationBranch`). -/
inductive ConversationBranch where
  | manipulator
  | convincer
deriving DecidableEq, Repr

/-- A stored message: the fields `add_message` persists that the claims
read. -/
structure StoredMessage where
  sender : MessageSender
  content : String
deriving DecidableEq, Repr

/-- A stored conversation document as the manager sees it. -/
structure StoredConversation where
  conversation_id : String
  branch : ConversationBranch
  status : ConversationStatus
  messages : List StoredMessage
deriving DecidableEq, Repr

/-- Modelled from the spec: the Conversation Store operation
`Get(id) → Conversation|NotFound`.  `ConversationManager` calls
`conversation_service.get_conversation(conversation_id)`, a method absent
from `ConversationService` in `src` (which only has
`get_conversation_by_id`); the store interface the manager is written
against is therefore taken from the spec (§6). -/
def getConv (store : List StoredConversation) (cid : String) :
    Option StoredConversation :=
  store.find? fun c => c.conversation_id == cid

/-- Modelled from the spec: the Conversation Store operation
`AppendMessage(id, message)` (the manager calls
`add_message(conversation_id, sender, content, metadata)`, a signature
absent from `ConversationService` in `src`): push the message onto the
matching document's `messages` array. -/
def appendMessage (store : List StoredConversation) (cid : String)
    (sender : MessageSender) (content : String) : List StoredConversation :=
  store.map fun c =>
    if c.conversation_id == cid then
      { c with messages := c.messages ++ [⟨sender, content⟩] }
    else c

/-- Modelled from the spec: the Conversation Store operation
`UpdateStatus(id, status)`, matching
`ConversationService.update_conversation_status`. -/
def store_update_status (store : List StoredConversation) (cid : String)
    (status : ConversationStatus) : List StoredConversation :=
  store.map fun c =>
    if c.conversation_id == cid then { c with status := status } else c

/-- Python's substring containment `needle in haystack` on lists of
characters. -/
def charsPrefix : List Char → List Char → Bool
  | [], _ => true
  | _ :: _, [] => false
  | a :: as, b :: bs => a == b && charsPrefix as bs

def charsContains (needle : List Char) : List Char → Bool
  | [] => needle.isEmpty
  | b :: bs => charsPrefix needle (b :: bs) || charsContains needle bs

/-- Python's `needle in haystack` substring test on strings. -/
def pyIn (needle haystack : String) : Bool :=
  charsContains needle.data haystack.data

/-- The keyword lists of `_fallback_message_analysis`
(`app/services/conversation_manager.py`, lines 306-339). -/
def negative_keywords : List String :=
  ["no", "not interested", "don" ++ apos ++ "t want", "too expensive", "bye",
    "goodbye"]

def positive_keywords : List String :=
  ["yes", "interested", "tell me more", "how much", "buy", "purchase"]

def question_keywords : List String :=
  ["what", "how", "when", "where", "which", "?"]

/-- Embeds `ConversationManager._fallback_message_analysis`: deterministic
keyword heuristics over the lower-cased message, used whenever the Gateway
analysis fails or returns unparseable JSON. -/
def fallback_message_analysis (message : String) : MessageAnalysis :=
  let ml := pyLower message
  if negative_keywords.any fun w => pyIn w ml then
    ⟨"declining", "negative", "objection", false, "recover"⟩
  else if positive_keywords.any fun w => pyIn w ml then
    ⟨"high", "positive", "purchase", false, "engage"⟩
  else if question_keywords.any fun w => pyIn w ml then
    ⟨"medium", "neutral", "information", false, "engage"⟩
  else
    ⟨"medium", "neutral", "information", false, "engage"⟩

/-- The AI Gateway outcomes visible to one `process_customer_message` call:
`analysis` is the parsed JSON analysis when the analysis call succeeds and
parses, `response` is the chat-completion text when that call succeeds;
`none` models a Gateway failure or timeout on that call. -/
structure Gateway where
  analysis : Option MessageAnalysis
  response : Option String

/-- The fixed fallback reply of `AzureOpenAIService.generate_completion`
(`app/services/ai_service.py`, lines 20-40), returned on any completion
failure or timeout. -/
def completionFallback : String :=
  "I apologize, but I" ++ apos
    ++ "m experiencing technical difficulties. Please try again in a moment."

/-- Embeds `generate_completion`: the Gateway text on success, the fixed
apology on failure (the exception is caught inside the service). -/
def generate_completion (gw : Gateway) : String :=
  match gw.response with
  | some t => t
  | none => completionFallback

/-- The fixed greeting `_generate_manipulator_response` returns for an empty
product list (`app/services/ai_service.py`, lines 139-140), without any
Gateway call. -/
def manipulatorNoProductsGreeting : String :=
  "Hello! Thank you for your interest in our products. How can I help you today?"

/-- Embeds `AzureOpenAIService.generate_conversation_response`
(`app/services/ai_service.py`, lines 109-240) for a non-welcome call: the
manipulator branch returns the fixed greeting when the context carries no
products and otherwise funnels into `generate_completion`; the convincer
branch always funnels into `generate_completion`. -/
def generate_conversation_response (gw : Gateway)
    (branch : ConversationBranch) (products : List ProductRow) : String :=
  match branch with
  | .manipulator =>
      if products = [] then manipulatorNoProductsGreeting
      else generate_completion gw
  | .convincer => generate_completion gw

/-- Embeds `_analyze_customer_message`
(`app/services/conversation_manager.py`, lines 262-304): the AI analysis
when available, otherwise the deterministic keyword fallback (both the
Gateway failing and its reply not parsing as JSON land in the fallback). -/
def analyze_customer_message (gw : Gateway) (message : String) :
    MessageAnalysis :=
  match gw.analysis with
  | some a => a
  | none => fallback_message_analysis message

/-- Embeds `_should_conclude_conversation`
(`app/services/conversation_manager.py`, lines 554-569). -/
def should_conclude_conversation (status : ConversationStatus)
    (message_count : ℕ) (intent : String) : Bool :=
  status == ConversationStatus.qualified
    || (status == ConversationStatus.uninterested && message_count > 3)
    || intent == "leaving"
    || message_count > 15

/-- The fixed fallback of `generate_conversation_response`
(`app/services/ai_service.py`, lines 109-127).  The conclusion path always
lands here: `_conclude_conversation` builds a context without a `"branch"`
key, so `conversation_context["branch"]` raises and the method returns this
constant regardless of the Gateway. -/
def responseFallback : String :=
  "Thank you for your interest! I" ++ apos
    ++ "m here to help you find the perfect product. How can I assist you today?"

/-- The conversation-not-found reply of `process_customer_message`
(`app/services/conversation_manager.py`, lines 160-162). -/
def notFoundReply : String :=
  "I" ++ apos ++ "m sorry, I couldn" ++ apos
    ++ "t find our conversation. Could you please start over?"

/-- The catch-all exception reply of `process_customer_message`
(`app/services/conversation_manager.py`, lines 229-231). -/
def exceptionReply : String :=
  "I apologize for the confusion. Could you please repeat that?"

/-- The manager state: the conversation store plus the in-memory
`conversation_states` message counter (`.get(conversation_id, {})` with a 0
default, modelled as a total function). -/
structure ManagerState where
  store : List StoredConversation
  counts : String → ℕ

/-- Fault injection for the store writes inside one call: `true` means that
persistence call raises (a `DatabaseError`), landing in the catch-all except
branch; `_conclude_conversation` swallows its own exceptions, so a conclude
fault does not reach the caller. -/
structure StoreFaults where
  appendCustomerRaises : Bool
  appendAgentRaises : Bool
  concludeRaises : Bool
deriving DecidableEq, Repr

def noFaults : StoreFaults := ⟨false, false, false⟩

/-- The reply one `process_customer_message` call produces once analysis and
status are known, mirroring its three handler branches
(`app/services/conversation_manager.py`, lines 193-205): the Uninterested
branch goes through `_handle_uninterested_customer`, whose cross-product
alternatives always come back empty (`_get_alternative_products` calls the
nonexistent `search_products_by_keywords` and its except returns `[]`), so
it lands in the recovery response over the retrieved products; the
cross-recommendation branch passes a context without a `products` key (so
the manipulator side sees `[]`); the standard branch passes the retrieved
products. -/
def conversation_reply (gw : Gateway) (branch : ConversationBranch)
    (products : List ProductRow) (analysis : MessageAnalysis)
    (status : ConversationStatus) : String :=
  if status = .uninterested then
    generate_conversation_response gw branch products
  else if analysis.needs_cross_recommendation then
    generate_conversation_response gw branch []
  else
    generate_conversation_response gw branch products

/-- Whether one call concludes the conversation: `_should_conclude` applied
to the status and count this call computes. -/
def callConcludes (gw : Gateway) (st : ManagerState) (cid msg : String) : Bool :=
  let analysis := analyze_customer_message gw msg
  let message_count := st.counts cid + 1
  let status := determine_conversation_status analysis.interest_level
    analysis.intent message_count
  should_conclude_conversation status message_count analysis.intent

/-- Embeds `ConversationManager.process_customer_message`
(`app/services/conversation_manager.py`, lines 145-231) over the
spec-modelled store: look up the conversation (fixed apology with Active on
a miss); append the customer message; analyze (Gateway with keyword
fallback); bump the tracked message count; compute the new status; retrieve
products (`_get_products_for_conversation`, whose result for this call is
the `products` argument); generate the reply through the handler branches
(`conversation_reply`); append the agent message; when `_should_conclude`
fires, `_conclude_conversation` appends the closing message
(`responseFallback`, see there) and persists the status.  Any injected
store fault lands in the catch-all except branch returning the fixed
apology with Active. -/
def process_customer_message (gw : Gateway) (faults : StoreFaults)
    (st : ManagerState) (conversation_id customer_message : String)
    (products : List ProductRow) :
    (String × ConversationStatus) × ManagerState :=
  match getConv st.store conversation_id with
  | none => ((notFoundReply, .active), st)
  | some conv =>
    if faults.appendCustomerRaises then ((exceptionReply, .active), st)
    else
      let store1 := appendMessage st.store conversation_id .customer
        customer_message
      let analysis := analyze_customer_message gw customer_message
      let message_count := st.counts conversation_id + 1
      let status := determine_conversation_status analysis.interest_level
        analysis.intent message_count
      let response := conversation_reply gw conv.branch products analysis status
      if faults.appendAgentRaises then
        ((exceptionReply, .active), { st with store := store1 })
      else
        let store2 := appendMessage store1 conversation_id .agent response
        let counts2 := fun c =>
          if c = conversation_id then message_count else st.counts c
        let store3 :=
          if should_conclude_conversation status message_count analysis.intent
              && !faults.concludeRaises then
            store_update_status
              (appendMessage store2 conversation_id .agent responseFallback)
              conversation_id status
          else store2
        ((response, status), ⟨store3, counts2⟩)

/-- A sequence of `process_customer_message` calls on one conversation id
with no injected store faults; each call carries its message and the product
list its `_get_products_for_conversation` run produced. -/
def run_messages (gw : Gateway) (st : ManagerState) (cid : String) :
    List (String × List ProductRow) → ManagerState
  | [] => st
  | c :: cs =>
      run_messages gw (process_customer_message gw noFaults st cid c.1 c.2).2
        cid cs

/-- How many calls of the sequence conclude the conversation (append a
closing message). -/
def conclude_count (gw : Gateway) (st : ManagerState) (cid : String) :
    List (String × List ProductRow) → ℕ
  | [] => 0
  | c :: cs =>
      (if callConcludes gw st cid c.1 then 1 else 0)
        + conclude_count gw
            (process_customer_message gw noFaults st cid c.1 c.2).2 cid cs

lemma getConv_map_update (f : StoredConversation → StoredConversation)
    (hf : ∀ c, (f c).conversation_id = c.conversation_id) :
    ∀ (store : List StoredConversation) (cid : String),
      getConv (store.map fun c => if c.conversation_id == cid then f c else c)
          cid
        = (getConv store cid).map f
  | [], _ => rfl
  | c :: store, cid => by
    by_cases h : c.conversation_id = cid
    · have hb : (c.conversation_id == cid) = true := beq_iff_eq.mpr h
      have hb' : ((f c).conversation_id == cid) = true :=
        beq_iff_eq.mpr ((hf c).trans h)
      simp [getConv, List.find?, hb, hb']
    · have hb : (c.conversation_id == cid) = false := beq_eq_false_iff_ne.mpr h
      have ih := getConv_map_update f hf store cid
      simp only [getConv, List.map_cons, List.find?, hb, Bool.false_eq_true,
        if_false] at ih ⊢
      simpa [getConv] using ih

lemma getConv_appendMessage (store : List StoredConversation) (cid : String)
    (sender : MessageSender) (content : String) :
    getConv (appendMessage store cid sender content) cid
      = (getConv store cid).map
          (fun c => { c with messages := c.messages ++ [⟨sender, content⟩] }) :=
  getConv_map_update
    (fun c => { c with messages := c.messages ++ [⟨sender, content⟩] })
    (fun _ => rfl) store cid

lemma getConv_store_update_status (store : List StoredConversation)
    (cid : String) (status : ConversationStatus) :
    getConv (store_update_status store cid status) cid
      = (getConv store cid).map (fun c => { c with status := status }) :=
  getConv_map_update (fun c => { c with status := status })
    (fun _ => rfl) store cid

/-- Each faultless call on an existing conversation appends exactly the
customer message followed by the agent reply the call returned (given by
`conversation_reply` over the conversation's branch and the retrieved
products), plus the closing message when the call concludes; the tracked
count increases by one. -/
lemma process_message_step (gw : Gateway) (st : ManagerState) (cid msg : String)
    (products : List ProductRow)
    (conv : StoredConversation) (h : getConv st.store cid = some conv) :
    (∃ conv',
      getConv
          (process_customer_message gw noFaults st cid msg products).2.store cid
          = some conv'
        ∧ conv'.messages = conv.messages
            ++ [⟨.customer, msg⟩,
                ⟨.agent,
                  (process_customer_message gw noFaults st cid msg
                    products).1.1⟩]
            ++ (if callConcludes gw st cid msg then
                  [⟨MessageSender.agent, responseFallback⟩]
                else []))
    ∧ (process_customer_message gw noFaults st cid msg products).1.1
        = conversation_reply gw conv.branch products
            (analyze_customer_message gw msg)
            (determine_conversation_status
              (analyze_customer_message gw msg).interest_level
              (analyze_customer_message gw msg).intent (st.counts cid + 1))
    ∧ (process_customer_message gw noFaults st cid msg products).2.counts cid
        = st.counts cid + 1 := by
  have hrep : (process_customer_message gw noFaults st cid msg products).1.1
      = conversation_reply gw conv.branch products
          (analyze_customer_message gw msg)
          (determine_conversation_status
            (analyze_customer_message gw msg).interest_level
            (analyze_customer_message gw msg).intent (st.counts cid + 1)) := by
    simp [process_customer_message, h, noFaults]
  refine ⟨?_, hrep, by simp [process_customer_message, h, noFaults]⟩
  rw [hrep]
  simp only [process_customer_message, h, noFaults, Bool.false_eq_true,
    if_false, Bool.not_false, Bool.and_true]
  · by_cases hc : callConcludes gw st cid msg = true
    · have hc' : should_conclude_conversation
          (determine_conversation_status
            (analyze_customer_message gw msg).interest_level
            (analyze_customer_message gw msg).intent (st.counts cid + 1))
          (st.counts cid + 1) (analyze_customer_message gw msg).intent = true := hc
      rw [if_pos hc']
      rw [getConv_store_update_status, getConv_appendMessage,
        getConv_appendMessage, getConv_appendMessage, h]
      simp only [Option.map_some, Option.map_some']
      exact ⟨_, rfl, by simp [hc]⟩
    · have hc' : ¬ (should_conclude_conversation
          (determine_conversation_status
            (analyze_customer_message gw msg).interest_level
            (analyze_customer_message gw msg).intent (st.counts cid + 1))
          (st.counts cid + 1) (analyze_customer_message gw msg).intent = true) := hc
      rw [if_neg hc']
      rw [getConv_appendMessage, getConv_appendMessage, h]
      simp only [Option.map_some, Option.map_some']
      refine ⟨_, rfl, ?_⟩
      have hcf : callConcludes gw st cid msg = false :=
        Bool.eq_false_iff.mpr hc
      simp [hcf]

/-- The always-failing AI Gateway: every analysis and completion call times
out or errors. -/
def failingGateway : Gateway := ⟨none, none⟩

/-- C5: each faultless `process_customer_message` call on an existing
conversation appends exactly one Customer message followed by one Agent
message (plus the closing message when the call concludes); over any
sequence of N calls the history grows by exactly 2N plus one per concluding
call — exactly 2N when no call concludes and the history starts empty — the
old history stays an unchanged prefix (append-only), and the customer
messages appear in call order. -/
theorem process_message_history_spec :
    (∀ (gw : Gateway) (st : ManagerState) (cid msg : String)
        (products : List ProductRow)
        (conv : StoredConversation), getConv st.store cid = some conv →
      ∃ conv',
        getConv
            (process_customer_message gw noFaults st cid msg products).2.store
            cid = some conv'
          ∧ conv'.messages = conv.messages
              ++ [⟨.customer, msg⟩,
                  ⟨.agent,
                    (process_customer_message gw noFaults st cid msg
                      products).1.1⟩]
              ++ (if callConcludes gw st cid msg then
                    [⟨MessageSender.agent, responseFallback⟩]
                  else []))
    ∧ (∀ (gw : Gateway) (calls : List (String × List ProductRow))
        (st : ManagerState) (cid : String)
        (conv : StoredConversation), getConv st.store cid = some conv →
      ∃ conv',
        getConv (run_messages gw st cid calls).store cid = some conv'
          ∧ conv'.messages.length
              = conv.messages.length + 2 * calls.length
                + conclude_count gw st cid calls
          ∧ (conclude_count gw st cid calls = 0 → conv.messages = [] →
              conv'.messages.length = 2 * calls.length)
          ∧ conv.messages <+: conv'.messages
          ∧ (conv'.messages.filter fun m =>
                m.sender == MessageSender.customer).map StoredMessage.content
            = ((conv.messages.filter fun m =>
                m.sender == MessageSender.customer).map StoredMessage.content)
              ++ calls.map Prod.fst) := by
  refine ⟨fun gw st cid msg products conv h =>
    (process_message_step gw st cid msg products conv h).1, ?_⟩
  intro gw calls
  induction calls with
  | nil =>
    intro st cid conv h
    exact ⟨conv, h, by simp [run_messages, conclude_count],
      fun _ hnil => by simp [hnil], List.prefix_rfl,
      by simp [run_messages, conclude_count]⟩
  | cons c cs ih =>
    intro st cid conv h
    obtain ⟨⟨conv1, h1, hmsgs⟩, _, _⟩ :=
      process_message_step gw st cid c.1 c.2 conv h
    obtain ⟨conv', h', hlen, _, hpre, hcust⟩ := ih _ cid conv1 h1
    have hlenEq : conv'.messages.length
        = conv.messages.length + 2 * (c :: cs).length
          + conclude_count gw st cid (c :: cs) := by
      rw [hlen, hmsgs]
      simp only [conclude_count, List.length_append, List.length_cons,
        List.length_nil]
      by_cases hc : callConcludes gw st cid c.1 = true <;> simp [hc] <;> ring
    refine ⟨conv', h', hlenEq, ?_, ?_, ?_⟩
    · intro hcc hnil
      rw [hlenEq, hcc, hnil]
      simp
    · refine List.IsPrefix.trans ?_ hpre
      rw [hmsgs]
      exact ⟨_, by rw [List.append_assoc]⟩
    · rw [hcust, hmsgs]
      by_cases hc : callConcludes gw st cid c.1 = true <;>
        simp [hc, List.filter_append]

/-- A concrete conversation and manager state for the history witness. -/
def convWitness : StoredConversation := ⟨"c1", .convincer, .active, []⟩

def stWitness : ManagerState := ⟨[convWitness], fun _ => 0⟩

/-- Witness for C5: one failing-Gateway call with message `"hello"` (which
triggers no conclusion) leaves a history of exactly two messages. -/
theorem process_message_history_spec_witness :
    ∃ conv',
      getConv
          (run_messages failingGateway stWitness "c1" [("hello", [])]).store
          "c1" = some conv'
        ∧ conv'.messages.length = 2 := by
  obtain ⟨conv', h1, _, h3, _, _⟩ :=
    process_message_history_spec.2 failingGateway [("hello", [])] stWitness
      "c1" convWitness rfl
  exact ⟨conv', h1, h3 (by decide) rfl⟩

/-- C4 counterexample: with every Gateway call failing, processing the
message `"buy"` on an Active conversation returns status Qualified and
persists Qualified — the status does change after a failed classification,
because it is computed from the deterministic keyword fallback. -/
theorem process_message_gateway_failure_counterexample :
    ((process_customer_message failingGateway noFaults
        ⟨[⟨"c1", .convincer, .active, []⟩], fun _ => 0⟩ "c1" "buy" []).1.2
      = ConversationStatus.qualified)
    ∧ ((getConv (process_customer_message failingGateway noFaults
          ⟨[⟨"c1", .convincer, .active, []⟩], fun _ => 0⟩ "c1" "buy" []).2.store
          "c1").map StoredConversation.status
        = some ConversationStatus.qualified) := by
  exact ⟨by decide, by decide⟩

/-- C4 amended: with every AI Gateway call failing or timing out,
`process_customer_message` on an existing conversation still returns a
non-empty fixed fallback reply — the completion-failure apology, or the
fixed no-products greeting when the conversation is manipulator-branch and
the product lookup came back empty — but the new status is computed from the
deterministic keyword-fallback analysis of the message, so it is not in
general the pre-call status; it equals the pre-call status only when that
analysis decides to keep the conversation Active. -/
theorem process_message_gateway_failure_spec (st : ManagerState)
    (cid msg : String) (products : List ProductRow)
    (conv : StoredConversation)
    (h : getConv st.store cid = some conv) :
    ((process_customer_message failingGateway noFaults st cid msg
          products).1.1 = completionFallback
      ∨ (process_customer_message failingGateway noFaults st cid msg
          products).1.1 = manipulatorNoProductsGreeting)
    ∧ (process_customer_message failingGateway noFaults st cid msg
        products).1.1 ≠ ""
    ∧ (process_customer_message failingGateway noFaults st cid msg
        products).1.2
        = determine_conversation_status
            (fallback_message_analysis msg).interest_level
            (fallback_message_analysis msg).intent (st.counts cid + 1) := by
  have h1 : (process_customer_message failingGateway noFaults st cid msg
      products).1.1
      = conversation_reply failingGateway conv.branch products
          (fallback_message_analysis msg)
          (determine_conversation_status
            (fallback_message_analysis msg).interest_level
            (fallback_message_analysis msg).intent (st.counts cid + 1)) := by
    simp [process_customer_message, h, noFaults, analyze_customer_message,
      failingGateway]
  have hd : (process_customer_message failingGateway noFaults st cid msg
      products).1.1 = completionFallback
      ∨ (process_customer_message failingGateway noFaults st cid msg
        products).1.1 = manipulatorNoProductsGreeting := by
    rw [h1]
    unfold conversation_reply generate_conversation_response
    cases conv.branch with
    | manipulator =>
      split_ifs <;>
        simp [generate_completion, failingGateway]
    | convincer =>
      split_ifs <;>
        simp [generate_completion, failingGateway]
  refine ⟨hd, ?_, ?_⟩
  · rcases hd with he | he <;> rw [he] <;> decide
  · simp [process_customer_message, h, noFaults, analyze_customer_message,
      failingGateway]

/-- Witness for C4's amended theorem at the concrete `"buy"` message on a
convincer conversation with an empty product lookup. -/
theorem process_message_gateway_failure_spec_witness :
    ((process_customer_message failingGateway noFaults stWitness "c1" "buy"
          []).1.1 = completionFallback
      ∨ (process_customer_message failingGateway noFaults stWitness "c1" "buy"
          []).1.1 = manipulatorNoProductsGreeting)
    ∧ (process_customer_message failingGateway noFaults stWitness "c1"
        "buy" []).1.1 ≠ ""
    ∧ (process_customer_message failingGateway noFaults stWitness "c1"
        "buy" []).1.2
        = determine_conversation_status
            (fallback_message_analysis "buy").interest_level
            (fallback_message_analysis "buy").intent (stWitness.counts "c1" + 1) :=
  process_message_gateway_failure_spec stWitness "c1" "buy" [] convWitness rfl

/-- C10: `process_customer_message` is total over the modelled inputs and
never raises: a missing conversation id returns the fixed non-empty
not-found apology with status Active and leaves the state untouched, and a
persistence fault at either append returns the fixed non-empty catch-all
apology with status Active — in every error path the caller observes Active
regardless of the conversation's actual stored status. -/
theorem process_message_total_spec (gw : Gateway) (st : ManagerState)
    (cid msg : String) (products : List ProductRow) :
    (∀ faults : StoreFaults, getConv st.store cid = none →
      process_customer_message gw faults st cid msg products
        = ((notFoundReply, .active), st))
    ∧ (∀ (faults : StoreFaults) (conv : StoredConversation),
        getConv st.store cid = some conv →
        faults.appendCustomerRaises = true →
        (process_customer_message gw faults st cid msg products).1
          = (exceptionReply, .active))
    ∧ (∀ (faults : StoreFaults) (conv : StoredConversation),
        getConv st.store cid = some conv →
        faults.appendCustomerRaises = false →
        faults.appendAgentRaises = true →
        (process_customer_message gw faults st cid msg products).1
          = (exceptionReply, .active))
    ∧ notFoundReply ≠ "" ∧ exceptionReply ≠ "" := by
  refine ⟨?_, ?_, ?_, by decide, by decide⟩
  · intro faults hnone
    simp [process_customer_message, hnone]
  · intro faults conv h hcust
    simp [process_customer_message, h, hcust]
  · intro faults conv h hcust hagent
    simp [process_customer_message, h, hcust, hagent]

/-- Witness for C10: a store fault at the agent append on a conversation
whose persisted status is terminal (Qualified) still yields the apology with
status Active; a missing conversation id yields the not-found apology with
Active and an unchanged state. -/
theorem process_message_total_spec_witness :
    (process_customer_message failingGateway ⟨false, true, false⟩
        ⟨[⟨"c9", .convincer, .qualified, []⟩], fun _ => 0⟩ "c9" "hi" []).1
      = (exceptionReply, .active)
    ∧ process_customer_message failingGateway ⟨false, true, false⟩
        (⟨[], fun _ => 0⟩ : ManagerState) "missing" "hi" []
      = ((notFoundReply, .active), (⟨[], fun _ => 0⟩ : ManagerState)) :=
  ⟨(process_message_total_spec failingGateway
      ⟨[⟨"c9", .convincer, .qualified, []⟩], fun _ => 0⟩ "c9" "hi" []).2.2.1
      ⟨false, true, false⟩ ⟨"c9", .convincer, .qualified, []⟩ rfl rfl rfl,
    (process_message_total_spec failingGateway
      (⟨[], fun _ => 0⟩ : ManagerState) "missing" "hi" []).1
      ⟨false, true, false⟩ rfl⟩

/-! ## Prompt composer (`PromptEngine`) -/

/-- Modelled from the spec: the catalog Item shape the prompt composer reads
(identity/name, free-text description, structured attributes price and
category).  `prompt_engine.py` accesses `product.name`, `product.description`,
`product.price` and `product.category`, none of which exist on
`schemas.Product` in `src`; the record therefore follows the spec's Item
(§3).  The `metadata` / `product_metadata` attributes probed by `hasattr`
are absent, so those branches resolve to their else-paths. -/
structure PromptItem where
  name : String
  description : String
  price : Option String
  category : Option String
deriving DecidableEq, Repr

/-- Python's `s[:100]` over characters plus the conditional ellipsis used on
product descriptions. -/
def truncate100Ellipsis (s : String) : String :=
  String.mk (s.data.take 100) ++ (if s.data.length > 100 then "..." else "")

/-- The three lines `_format_products_for_prompt` emits for one enumerated
product (attributes dict empty, so brand falls back to `Quality Brand` and
price to the `$`-formatted field or its default). -/
def formatProductEntry (i : ℕ) (p : PromptItem) : List String :=
  let description := if p.description ≠ "" then p.description else p.name
  let price := match p.price with
    | some pr => "$" ++ pr
    | none => "Contact for pricing"
  let firstLines := [toString i ++ ". " ++ truncate100Ellipsis description,
    "   Brand: Quality Brand | Price: " ++ price]
  match p.category with
  | some c => firstLines ++ ["   Key Features: " ++ c]
  | none => firstLines ++ ["   Category: General"]

/-- Embeds `PromptEngine._format_products_for_prompt`
(`app/services/prompt_engine.py`, lines 173-209): only `products[:3]` are
enumerated (from 1) and joined with newlines. -/
def format_products_for_prompt (products : List PromptItem) : String :=
  if products = [] then "No specific products available."
  else
    String.intercalate "\n"
      (((products.take 3).enumFrom 1).flatMap fun ie =>
        formatProductEntry ie.1 ie.2)

/-- One history entry as the composer reads it (`msg.get('sender')` /
`msg.get('content')`). -/
structure HistMsg where
  sender : String
  content : String
deriving DecidableEq, Repr

/-- Python's `l[-n:]`. -/
def lastN (n : ℕ) (l : List HistMsg) : List HistMsg := l.drop (l.length - n)

/-- Embeds `PromptEngine._build_history_context`
(`app/services/prompt_engine.py`, lines 211-223): at most the last 5 history
entries, each as `[sender]: content[:100]`. -/
def build_history_context (conversation_history : List HistMsg) : String :=
  if conversation_history = [] then "This is the start of the conversation."
  else
    "RECENT CONVERSATION:\n" ++ String.intercalate "\n"
      ((lastN 5 conversation_history).map fun m =>
        "[" ++ m.sender ++ "]: " ++ String.mk (m.content.data.take 100))

/-- Embeds `_build_base_context` (lines 150-171): the category line is
collected from every product (not only the top 3).  CPython iterates the
`set` in a fixed per-process order; first-occurrence order stands in for it
here (the claims do not depend on which order it is). -/
def build_base_context (products : List PromptItem) : String :=
  if products = [] then
    "We offer a variety of quality products to meet our customers"
      ++ apos ++ " needs."
  else
    let categories := (products.filterMap PromptItem.category).dedup
    let category_text :=
      if categories = [] then "various categories"
      else String.intercalate ", " categories
    "BUSINESS CONTEXT:\nWe are a premium retailer specializing in "
      ++ category_text
      ++ ". Our mission is to help customers find products that perfectly match their needs and preferences. We pride ourselves on quality, customer service, and building long-term relationships.\n\nAVAILABLE PRODUCTS:\n"
      ++ format_products_for_prompt products

/-- The static instruction prose of the three conversation templates,
abbreviated to its heading: the omitted text is constant and contains no
interpolation. -/
def manipulatorInstructions : String :=
  "TASK: Respond as a knowledgeable product consultant who understands this customer came from our advertising."

def convincerInstructions : String :=
  "TASK: Respond as a helpful product expert who can guide them to the perfect solution."

def recoveryInstructions : String :=
  "SITUATION: The customer has shown signs of disinterest or is about to disengage."

/-- Embeds `_create_manipulator_prompt` (lines 280-311): base context,
history context, quoted customer message, then static instructions. -/
def create_manipulator_prompt (customer_message history_context base_context :
    String) : String :=
  base_context ++ "\n\n" ++ history_context ++ "\n\nCUSTOMER" ++ apos
    ++ "S MESSAGE: \"" ++ customer_message ++ "\"\n\n"
    ++ manipulatorInstructions

/-- Embeds `_create_convincer_prompt` (lines 313-344); its
`customer_context` parameter is accepted by the source and never used in the
template. -/
def create_convincer_prompt (customer_message history_context base_context :
    String) : String :=
  base_context ++ "\n\n" ++ history_context ++ "\n\nCUSTOMER" ++ apos
    ++ "S MESSAGE: \"" ++ customer_message ++ "\"\n\n"
    ++ convincerInstructions

/-- Embeds `_create_recovery_prompt` (lines 346-379). -/
def create_recovery_prompt (customer_message history_context base_context :
    String) : String :=
  base_context ++ "\n\n" ++ history_context ++ "\n\nCUSTOMER" ++ apos
    ++ "S MESSAGE: \"" ++ customer_message ++ "\"\n\n"
    ++ recoveryInstructions

/-- Embeds `PromptEngine.generate_conversation_prompt`
(`app/services/prompt_engine.py`, lines 50-76): recovery template when the
status is Uninterested, otherwise the branch-specific template, all over the
same base and history contexts. -/
def generate_conversation_prompt (branch : ConversationBranch)
    (customer_message : String) (products : List PromptItem)
    (conversation_history : List HistMsg)
    (conversation_status : ConversationStatus) : String :=
  let base_context := build_base_context products
  let history_context := build_history_context conversation_history
  if conversation_status = .uninterested then
    create_recovery_prompt customer_message history_context base_context
  else
    match branch with
    | .manipulator =>
        create_manipulator_prompt customer_message history_context base_context
    | .convincer =>
        create_convincer_prompt customer_message history_context base_context

lemma lastN_idem (n : ℕ) (l : List HistMsg) : lastN n (lastN n l) = lastN n l := by
  unfold lastN
  rw [List.length_drop]
  have h0 : l.length - (l.length - n) - n = 0 := by omega
  rw [h0, List.drop_zero]

lemma lastN_eq_nil_iff (n : ℕ) (hn : 0 < n) (l : List HistMsg) :
    lastN n l = [] ↔ l = [] := by
  unfold lastN
  constructor
  · intro h
    have := congrArg List.length h
    rw [List.length_drop] at this
    simp only [List.length_nil] at this
    have : l.length = 0 := by omega
    exact List.length_eq_zero.mp this
  · intro h
    subst h
    simp [lastN]

lemma build_history_context_last5 (h : List HistMsg) :
    build_history_context h = build_history_context (lastN 5 h) := by
  unfold build_history_context
  by_cases hh : h = []
  · subst hh; rfl
  · have h5 : ¬ lastN 5 h = [] := fun he =>
      hh ((lastN_eq_nil_iff 5 (by norm_num) h).mp he)
    rw [if_neg hh, if_neg h5, lastN_idem]

/-- C9: the composer is pure (repeated calls on identical inputs give
identical output — there is no internal randomness in the model, every
definition being a function); the enumerated product block lists at most the
first 3 products (the composed prompt is unchanged when the product list is
cut to 3 before formatting); and the prompt depends on the conversation
history only through its last 5 entries. -/
theorem generate_conversation_prompt_spec :
    (∀ (branch : ConversationBranch) (msg : String)
        (products : List PromptItem) (history : List HistMsg)
        (status : ConversationStatus),
      generate_conversation_prompt branch msg products history status
        = generate_conversation_prompt branch msg products history status)
    ∧ (∀ products : List PromptItem,
        format_products_for_prompt products
          = format_products_for_prompt (products.take 3))
    ∧ (∀ history : List HistMsg,
        build_history_context history = build_history_context (lastN 5 history))
    ∧ (∀ (branch : ConversationBranch) (msg : String)
        (products : List PromptItem) (h₁ h₂ : List HistMsg)
        (status : ConversationStatus), lastN 5 h₁ = lastN 5 h₂ →
      generate_conversation_prompt branch msg products h₁ status
        = generate_conversation_prompt branch msg products h₂ status) := by
  refine ⟨fun _ _ _ _ _ => rfl, ?_, build_history_context_last5, ?_⟩
  · intro products
    unfold format_products_for_prompt
    by_cases h : products = []
    · subst h; rfl
    · have h3 : ¬ products.take 3 = [] := by
        cases products with
        | nil => exact absurd rfl h
        | cons a l => simp
      rw [if_neg h, if_neg h3, List.take_take, min_self]
  · intro branch msg products h₁ h₂ status hEq
    have hb : build_history_context h₁ = build_history_context h₂ := by
      rw [build_history_context_last5 h₁, hEq, ← build_history_context_last5 h₂]
    simp only [generate_conversation_prompt, hb]

/-- Witness for C9 at concrete inputs: a 6-entry history shifted by one
older entry composes the same prompt, since the last 5 entries agree. -/
theorem generate_conversation_prompt_spec_witness :
    generate_conversation_prompt .convincer "hi"
        [⟨"p", "d", none, none⟩]
        [⟨"customer", "m0"⟩, ⟨"customer", "m1"⟩, ⟨"agent", "m2"⟩,
          ⟨"customer", "m3"⟩, ⟨"agent", "m4"⟩, ⟨"customer", "m5"⟩]
        .active
      = generate_conversation_prompt .convincer "hi"
        [⟨"p", "d", none, none⟩]
        [⟨"agent", "x"⟩, ⟨"customer", "m1"⟩, ⟨"agent", "m2"⟩,
          ⟨"customer", "m3"⟩, ⟨"agent", "m4"⟩, ⟨"customer", "m5"⟩]
        .active :=
  generate_conversation_prompt_spec.2.2.2 .convincer "hi"
    [⟨"p", "d", none, none⟩] _ _ .active (by decide)

end ManipulatorDemo
